import Mathlib

/-!
Verification of the retrieval-augmented QA pipeline (app/rag_pipeline.py,
app/main.py) against its natural-language specification.

The Python code is shallowly embedded: pure fragments become Lean functions,
file-backed state (the retention ledger, the rate-limit window, the vector
index) is passed explicitly, and code that can raise returns `Except`.
Machine-irrelevant collaborators (the embedding model, the nearest-neighbor
search itself, the language-model backends) are treated as opaque parameters,
exactly as the spec declares them out of scope.

Timestamps are modelled as integers (seconds); `datetime.now()` becomes an
explicit `now : Int` argument, `timedelta(hours=1)` is 3600 and
`timedelta(days=7)` is 604800.
-/

/-- A stored chunk: page content plus the metadata the pipeline reads.
Mirrors a `langchain` `Document` after `add_documents` tagging:
`metadata["source"]` (absent keys modelled as `none`), `metadata["session_id"]`
(Python `None` is `none`), `metadata["is_sample"]`, `metadata["uploaded_at"]`. -/
structure Chunk where
  page_content : String
  source : Option String
  session_id : Option String
  is_sample : Bool
  uploaded_at : Int
deriving DecidableEq

/-- Python truthiness of an optional string: `None` and the empty string are
falsy, every other string is truthy.  Used wherever the source writes
`if session_id:` or `if not groq_key:`. -/
def isTruthy : Option String → Bool
  | none => false
  | some s => !(s == "")

/-- `session_filter` from `create_rag_chain` (rag_pipeline.py lines 224-235):
when the current session id is truthy, keep the documents whose
`session_id` metadata equals it or whose `is_sample` metadata is true;
otherwise return the documents unfiltered.  The instance field
`self._current_session_id` is passed explicitly. -/
def session_filter (current_session_id : Option String) (docs : List Chunk) : List Chunk :=
  if isTruthy current_session_id then
    docs.filter (fun d => d.session_id == current_session_id || d.is_sample)
  else
    docs

/-- The inline post-retrieval filter of `query_stream`
(rag_pipeline.py lines 416-422): textually the same predicate as
`session_filter`, applied to the `session_id` parameter. -/
def queryStreamFilter (session_id : Option String) (docs : List Chunk) : List Chunk :=
  if isTruthy session_id then
    docs.filter (fun d => d.session_id == session_id || d.is_sample)
  else
    docs

/-- A chunk ingested under session "a" without the sample flag. -/
def chunkOfSessionA : Chunk :=
  { page_content := "confidential body"
  , source := some "a_doc.txt"
  , session_id := some "a"
  , is_sample := false
  , uploaded_at := 0 }

/-- Claim C1, counterexample.  The claim quantifies over all distinct
non-null session tokens, but the filter only fires on truthy tokens
(`if session_id:`): the empty string is a non-null token distinct from
"a", yet a query carrying it sees the non-sample chunk ingested under
session "a" in its post-filter context, in both the chain filter and the
streaming filter.  So the filter does not keep exactly the
matching-or-sample chunks for every non-null caller token. -/
theorem c1_session_isolation_counterexample :
    ("" : String) ≠ "a"
    ∧ chunkOfSessionA.session_id = some "a"
    ∧ chunkOfSessionA.is_sample = false
    ∧ session_filter (some "") [chunkOfSessionA] = [chunkOfSessionA]
    ∧ queryStreamFilter (some "") [chunkOfSessionA] = [chunkOfSessionA] := by
  refine ⟨by decide, rfl, rfl, rfl, rfl⟩

/-- Claim C1, amended: for distinct non-null and NON-EMPTY tokens the
isolation holds.  If the caller token B is a non-empty string, the
post-filter context (chain filter and streaming filter alike) never
contains a chunk ingested under a different session A with the sample
flag off, and the filter keeps exactly the chunks whose session id
matches the caller or which are samples. -/
theorem c1_session_isolation (A B : String) (docs : List Chunk) (c : Chunk)
    (hB : B ≠ "") (hAB : A ≠ B)
    (hcs : c.session_id = some A) (hcnos : c.is_sample = false) :
    (c ∉ session_filter (some B) docs
      ∧ c ∉ queryStreamFilter (some B) docs)
    ∧ session_filter (some B) docs
        = docs.filter (fun d => d.session_id == some B || d.is_sample) := by
  have htruthy : isTruthy (some B) = true := by
    simp [isTruthy, hB]
  have hpred : (c.session_id == some B || c.is_sample) = false := by
    simp [hcs, hcnos, hAB]
  constructor
  · constructor
    · intro hmem
      rw [session_filter, if_pos htruthy] at hmem
      have := List.of_mem_filter hmem
      rw [hpred] at this
      exact Bool.false_ne_true this
    · intro hmem
      rw [queryStreamFilter, if_pos htruthy] at hmem
      have := List.of_mem_filter hmem
      rw [hpred] at this
      exact Bool.false_ne_true this
  · rw [session_filter, if_pos htruthy]

/-- Claim C1 witness: concrete instance of the amended isolation theorem,
with sessions "a" and "b" and the session-"a" chunk among the retrieved
documents. -/
theorem c1_session_isolation_witness :
    (chunkOfSessionA ∉ session_filter (some "b") [chunkOfSessionA]
      ∧ chunkOfSessionA ∉ queryStreamFilter (some "b") [chunkOfSessionA])
    ∧ session_filter (some "b") [chunkOfSessionA]
        = [chunkOfSessionA].filter (fun d => d.session_id == some "b" || d.is_sample) :=
  c1_session_isolation "a" "b" [chunkOfSessionA] chunkOfSessionA
    (by decide) (by decide) rfl rfl

/-!
## Rate limiter

`_check_rate_limit` (rag_pipeline.py lines 301-343).  The persisted
rate-window file parses to a list of timestamps (a missing, empty or corrupt
file parses to the empty list, the code catches `JSONDecodeError` and
`ValueError` there); the function receives that list and returns the boolean
outcome together with the list persisted afterwards (the original list when
nothing is written).
-/

/-- The pruning step: `recent_queries = [q for q in queries if q > one_hour_ago]`
with `one_hour_ago = now - timedelta(hours=1)`. -/
def pruneWindow (now : Int) (queries : List Int) : List Int :=
  queries.filter (fun q => decide (now - 3600 < q))

/-- `_check_rate_limit`: prune entries older than one hour; if 10 or more
remain return `false` without writing (the persisted list stays as loaded);
otherwise append `now`, persist the pruned-plus-now list and return `true`. -/
def checkRateLimit (now : Int) (queries : List Int) : Bool × List Int :=
  let recent := pruneWindow now queries
  if recent.length ≥ 10 then (false, queries)
  else (true, recent ++ [now])

/-- A sequence of calls to `_check_rate_limit` at the given times, threading
the persisted window state; returns the list of outcomes and the final
persisted state. -/
def runCalls (ts : List Int) (queries : List Int) : List Bool × List Int :=
  match ts with
  | [] => ([], queries)
  | t :: rest =>
    let r := checkRateLimit t queries
    let rr := runCalls rest r.2
    (r.1 :: rr.1, rr.2)

/-- If every recorded timestamp is strictly inside the trailing hour, pruning
keeps the whole list. -/
theorem pruneWindow_eq_self (now : Int) (qs : List Int)
    (h : ∀ q ∈ qs, now - 3600 < q) : pruneWindow now qs = qs := by
  rw [pruneWindow, List.filter_eq_self]
  intro q hq
  exact decide_eq_true (h q hq)

/-- Auxiliary induction for the rolling-window boundary: starting from a
persisted state whose entries are all at least `a`, a sequence of calls with
times in `[a, a + 3600)` yields `true` until the state reaches 10 entries and
`false` afterwards. -/
theorem runCalls_window (a : Int) (ts : List Int) :
    ∀ qs : List Int, (∀ q ∈ qs, a ≤ q) → (∀ t ∈ ts, a ≤ t ∧ t < a + 3600) →
      (runCalls ts qs).1
        = List.replicate (min ts.length (10 - qs.length)) true
            ++ List.replicate (ts.length - (10 - qs.length)) false := by
  induction ts with
  | nil => intro qs _ _; simp [runCalls]
  | cons t rest ih =>
    intro qs hqs hts
    have hta : a ≤ t := (hts t (List.mem_cons_self t rest)).1
    have htb : t < a + 3600 := (hts t (List.mem_cons_self t rest)).2
    have hrest : ∀ s ∈ rest, a ≤ s ∧ s < a + 3600 :=
      fun s hs => hts s (List.mem_cons_of_mem t hs)
    have hprune : pruneWindow t qs = qs := by
      refine pruneWindow_eq_self t qs (fun q hq => ?_)
      have := hqs q hq
      omega
    by_cases hlen : qs.length ≥ 10
    · have hstep : checkRateLimit t qs = (false, qs) := by
        rw [checkRateLimit]
        simp only [hprune]
        rw [if_pos hlen]
      have hz : 10 - qs.length = 0 := by omega
      rw [runCalls]
      simp only [hstep]
      rw [ih qs hqs hrest]
      simp [hz, List.replicate_succ]
    · have hlt : qs.length < 10 := by omega
      have hstep : checkRateLimit t qs = (true, qs ++ [t]) := by
        rw [checkRateLimit]
        simp only [hprune]
        rw [if_neg (by omega)]
      have hqs2 : ∀ q ∈ qs ++ [t], a ≤ q := by
        intro q hq
        rcases List.mem_append.mp hq with h | h
        · exact hqs q h
        · simp at h; omega
      rw [runCalls]
      simp only [hstep]
      rw [ih (qs ++ [t]) hqs2 hrest]
      have h1 : min (rest.length + 1) (10 - qs.length)
          = min rest.length (10 - (qs ++ [t]).length) + 1 := by
        simp only [List.length_append, List.length_singleton]
        omega
      have h2 : (rest.length + 1) - (10 - qs.length)
          = rest.length - (10 - (qs ++ [t]).length) := by
        simp only [List.length_append, List.length_singleton]
        omega
      simp only [List.length_cons, h1, h2, List.replicate_succ, List.cons_append]

/-- Claim C2: the rate check admits a call exactly when fewer than 10 recorded
timestamps lie in the trailing hour, persisting the pruned list plus `now` on
success and writing nothing on rejection; consequently from an empty window a
sequence of calls inside one rolling hour succeeds exactly 10 times (the 11th
and all later ones fail), and once the oldest entry of a full window ages past
one hour the next call is admitted again. -/
theorem c2_rate_limit_boundary (now : Int) (queries : List Int) :
    ((pruneWindow now queries).length < 10 →
      checkRateLimit now queries = (true, pruneWindow now queries ++ [now]))
    ∧ (10 ≤ (pruneWindow now queries).length →
      checkRateLimit now queries = (false, queries))
    ∧ (∀ (a : Int) (ts : List Int), (∀ t ∈ ts, a ≤ t ∧ t < a + 3600) →
      (runCalls ts []).1
        = List.replicate (min ts.length 10) true
            ++ List.replicate (ts.length - 10) false)
    ∧ (∀ (q0 : Int) (rest : List Int), q0 ≤ now - 3600 →
      (∀ q ∈ rest, now - 3600 < q) → rest.length = 9 →
      (checkRateLimit now (q0 :: rest)).1 = true) := by
  refine ⟨?_, ?_, ?_, ?_⟩
  · intro h
    simp only [checkRateLimit]
    rw [if_neg (by omega)]
  · intro h
    simp only [checkRateLimit]
    rw [if_pos h]
  · intro a ts hts
    have := runCalls_window a ts [] (by simp) hts
    simpa using this
  · intro q0 rest h0 hrest hlen
    have hprune : pruneWindow now (q0 :: rest) = rest := by
      have hq0 : (decide (now - 3600 < q0)) = false := decide_eq_false (by omega)
      rw [pruneWindow, List.filter_cons]
      simp only [hq0, Bool.false_eq_true, if_false]
      exact pruneWindow_eq_self now rest hrest
    rw [checkRateLimit]
    simp only [hprune]
    rw [if_neg (by omega)]

/-- Claim C2 witness: from an empty persisted window, 11 calls inside one hour
yield 10 successes then a failure; and with a full window of 10 whose oldest
entry is exactly one hour old, the next call is admitted. -/
theorem c2_rate_limit_boundary_witness :
    (runCalls [0, 1, 2, 3, 4, 5, 6, 7, 8, 9, 10] []).1
      = List.replicate 10 true ++ List.replicate 1 false
    ∧ (checkRateLimit 3601
        [1, 400, 800, 1200, 1600, 2000, 2400, 2800, 3200, 3599]).1 = true := by
  constructor
  · have h := (c2_rate_limit_boundary 0 []).2.2.1 0
      [0, 1, 2, 3, 4, 5, 6, 7, 8, 9, 10] (by decide)
    simpa using h
  · exact (c2_rate_limit_boundary 3601 []).2.2.2 1
      [400, 800, 1200, 1600, 2000, 2400, 2800, 3200, 3599]
      (by decide) (by decide) (by decide)

/-!
## Retention ledger, ingestion and the cleanup sweep

`document_metadata.json` is a JSON object `{"documents": {path: info}}`.
`_cleanup_old_documents` and `get_documents_by_session` call `json.load` with
no exception handler, so the file has three relevant states: absent, present
but not valid JSON (where `json.load` raises `JSONDecodeError`), and valid.
A valid file is an insertion-ordered dictionary, modelled as an association
list with distinct keys.  The Chroma collection is modelled as the list of
stored chunks; `delete(whereparameter)` on a source path can itself raise, so
the sweep takes an oracle `deleteFails` saying which per-path deletes throw.
-/

/-- One ledger entry value: `{"uploaded_at": ..., "session_id": ..., "is_sample": ...}`. -/
structure DocInfo where
  uploaded_at : Int
  session_id : Option String
  is_sample : Bool
deriving DecidableEq

/-- The three observable states of the ledger storage file. -/
inductive LedgerFile where
  | missing : LedgerFile
  | corrupt : LedgerFile
  | valid : List (String × DocInfo) → LedgerFile
deriving DecidableEq

/-- The pipeline state the ledger operations touch: the metadata file and the
vector-store collection. -/
structure SysState where
  doc_metadata : LedgerFile
  index : List Chunk
deriving DecidableEq

/-- `timedelta(days=7)` in seconds. -/
def sevenDays : Int := 604800

/-- The keep condition of the sweep loop:
`upload_time > seven_days_ago or doc_info.get("is_sample", False)`. -/
def keepEntry (now : Int) (info : DocInfo) : Bool :=
  decide (now - sevenDays < info.uploaded_at) || info.is_sample

/-- `self.vector_store._collection.delete(where={"source": doc_path})`:
removes every stored chunk whose source metadata equals the path. -/
def deleteBySource (index : List Chunk) (p : String) : List Chunk :=
  index.filter (fun c => !(c.source == some p))

/-- The loop of `_cleanup_old_documents` over `metadata["documents"]`: an
entry is kept when uploaded within 7 days or flagged sample; otherwise the
index delete is attempted, a raising delete is caught and not counted, and
either way the entry is dropped from the rebuilt dictionary.  Returns the
kept entries, the resulting index and the count of successful deletes. -/
def sweepDocs (now : Int) (deleteFails : String → Bool) :
    List (String × DocInfo) → List Chunk → List (String × DocInfo) × List Chunk × Nat
  | [], index => ([], index, 0)
  | (p, info) :: rest, index =>
    if keepEntry now info then
      ((p, info) :: (sweepDocs now deleteFails rest index).1,
        (sweepDocs now deleteFails rest index).2.1,
        (sweepDocs now deleteFails rest index).2.2)
    else if deleteFails p then
      sweepDocs now deleteFails rest index
    else
      ((sweepDocs now deleteFails rest (deleteBySource index p)).1,
        (sweepDocs now deleteFails rest (deleteBySource index p)).2.1,
        (sweepDocs now deleteFails rest (deleteBySource index p)).2.2 + 1)

/-- `_cleanup_old_documents` (rag_pipeline.py lines 569-606): a missing file
returns immediately; `json.load` on a corrupt file raises before anything is
touched; a valid file is swept and rewritten with the kept entries.  Returns
the outcome, the new state and the deleted-document count. -/
def cleanupOldDocuments (now : Int) (deleteFails : String → Bool) (st : SysState) :
    Except String Unit × SysState × Nat :=
  match st.doc_metadata with
  | .missing => (.ok (), st, 0)
  | .corrupt => (.error "JSONDecodeError", st, 0)
  | .valid documents =>
    (.ok (),
      ⟨.valid (sweepDocs now deleteFails documents st.index).1,
        (sweepDocs now deleteFails documents st.index).2.1⟩,
      (sweepDocs now deleteFails documents st.index).2.2)

/-- Python `path.split("/")[-1]` (for a path with no slash the whole path). -/
def basename (p : String) : String :=
  ((p.splitOn "/").reverse).headD p

/-- One row of the list returned by `get_documents_by_session`. -/
structure DocListing where
  filename : String
  path : String
  uploaded_at : Int
deriving DecidableEq

/-- `get_documents_by_session` (rag_pipeline.py lines 608-637): a missing
file yields the empty list; `json.load` on a corrupt file raises; otherwise
the entries whose session id equals the argument are listed. -/
def getDocumentsBySession (st : SysState) (session_id : String) :
    Except String (List DocListing) :=
  match st.doc_metadata with
  | .missing => .ok []
  | .corrupt => .error "JSONDecodeError"
  | .valid documents =>
    .ok ((documents.filter (fun e => e.2.session_id == some session_id)).map
      (fun e => ⟨basename e.1, e.1, e.2.uploaded_at⟩))

/-- Python dict assignment `metadata["documents"][source_path] = {...}`:
overwrite in place when the key exists, append otherwise. -/
def updateEntry (documents : List (String × DocInfo)) (k : String) (v : DocInfo) :
    List (String × DocInfo) :=
  if documents.any (fun e => e.1 == k) then
    documents.map (fun e => if e.1 == k then (k, v) else e)
  else
    documents ++ [(k, v)]

/-- `_track_document` (rag_pipeline.py lines 543-567): load the ledger (a
missing file starts as `{"documents": {}}`, a corrupt one raises from
`json.load`), record the path with the current timestamp, the session id and
`is_sample: False`, and save. -/
def trackDocument (now : Int) (source_path : String) (session_id : Option String)
    (file : LedgerFile) : Except String LedgerFile :=
  match file with
  | .missing => .ok (.valid (updateEntry [] source_path ⟨now, session_id, false⟩))
  | .corrupt => .error "JSONDecodeError"
  | .valid documents =>
    .ok (.valid (updateEntry documents source_path ⟨now, session_id, false⟩))

/-- The metadata tagging loop of `add_documents`:
`session_id` becomes "global" for samples, `uploaded_at` is stamped and
`is_sample` recorded. -/
def tagChunk (now : Int) (session_id : Option String) (is_sample : Bool)
    (c : Chunk) : Chunk :=
  { c with
    session_id := if is_sample then some "global" else session_id
    uploaded_at := now
    is_sample := is_sample }

/-- `add_documents` (rag_pipeline.py lines 269-299): tag every chunk, add the
batch to the vector store, then (for a non-empty non-sample batch only) track
the first chunk source in the ledger.  The index write precedes the ledger
write, so a raising ledger load leaves the chunks stored but untracked. -/
def addDocuments (now : Int) (documents : List Chunk) (session_id : Option String)
    (is_sample : Bool) (st : SysState) : Except String Unit × SysState :=
  let tagged := documents.map (tagChunk now session_id is_sample)
  let index2 := st.index ++ tagged
  match is_sample, documents with
  | false, d :: _ =>
    match trackDocument now (d.source.getD "unknown") session_id st.doc_metadata with
    | .ok file2 => (.ok (), ⟨file2, index2⟩)
    | .error e => (.error e, ⟨st.doc_metadata, index2⟩)
  | _, _ => (.ok (), ⟨st.doc_metadata, index2⟩)

/-- The ledger entries recorded in a state (empty for a missing or corrupt
file, matching how nothing is ever read out of those states). -/
def ledgerDocs (st : SysState) : List (String × DocInfo) :=
  match st.doc_metadata with
  | .valid documents => documents
  | _ => []

/-- Every entry the sweep keeps satisfies the keep condition. -/
theorem sweep_kept_keep (now : Int) (f : String → Bool) :
    ∀ (docs : List (String × DocInfo)) (index : List Chunk),
      ∀ e ∈ (sweepDocs now f docs index).1, keepEntry now e.2 = true := by
  intro docs
  induction docs with
  | nil => intro index e he; simp [sweepDocs] at he
  | cons hd rest ih =>
    intro index e he
    obtain ⟨p, info⟩ := hd
    simp only [sweepDocs] at he
    by_cases hk : keepEntry now info = true
    · rw [if_pos hk] at he
      rcases List.mem_cons.mp he with heq | hmem
      · rw [heq]; exact hk
      · exact ih index e hmem
    · rw [if_neg hk] at he
      by_cases hf : f p = true
      · rw [if_pos hf] at he
        exact ih index e he
      · rw [if_neg hf] at he
        exact ih (deleteBySource index p) e he

/-- When every entry satisfies the keep condition, the sweep keeps all of
them, touches no chunk and counts no deletion. -/
theorem sweep_all_keep (now : Int) (f : String → Bool) :
    ∀ (docs : List (String × DocInfo)) (index : List Chunk),
      (∀ e ∈ docs, keepEntry now e.2 = true) →
      sweepDocs now f docs index = (docs, index, 0) := by
  intro docs
  induction docs with
  | nil => intro index _; rfl
  | cons hd rest ih =>
    intro index h
    obtain ⟨p, info⟩ := hd
    have hk : keepEntry now info = true := h (p, info) (List.mem_cons_self _ _)
    simp only [sweepDocs]
    rw [if_pos hk, ih index (fun e he => h e (List.mem_cons_of_mem _ he))]

/-- Deleting a different source keeps a chunk in the collection. -/
theorem mem_deleteBySource (index : List Chunk) (p : String) {c : Chunk}
    (hc : c ∈ index) (hs : ¬ c.source = some p) : c ∈ deleteBySource index p := by
  rw [deleteBySource]
  refine List.mem_filter.mpr ⟨hc, ?_⟩
  simp [hs]

/-- A stored chunk whose source differs from every expired non-failing
entry path survives the sweep. -/
theorem sweep_chunk_survives (now : Int) (f : String → Bool) (c : Chunk) :
    ∀ (docs : List (String × DocInfo)) (index : List Chunk), c ∈ index →
      (∀ e ∈ docs, keepEntry now e.2 = false → f e.1 = false → ¬ c.source = some e.1) →
      c ∈ (sweepDocs now f docs index).2.1 := by
  intro docs
  induction docs with
  | nil => intro index hc _; simpa [sweepDocs] using hc
  | cons hd rest ih =>
    intro index hc hcond
    obtain ⟨p, info⟩ := hd
    have hcondrest : ∀ e ∈ rest, keepEntry now e.2 = false → f e.1 = false →
        ¬ c.source = some e.1 :=
      fun e he => hcond e (List.mem_cons_of_mem _ he)
    simp only [sweepDocs]
    by_cases hk : keepEntry now info = true
    · rw [if_pos hk]
      exact ih index hc hcondrest
    · rw [if_neg hk]
      have hkf : keepEntry now info = false := by
        revert hk; cases keepEntry now info <;> simp
      by_cases hf : f p = true
      · rw [if_pos hf]
        exact ih index hc hcondrest
      · rw [if_neg hf]
        have hff : f p = false := by
          revert hf; cases f p <;> simp
        have hns : ¬ c.source = some p := hcond (p, info) (List.mem_cons_self _ _) hkf hff
        exact ih (deleteBySource index p) (mem_deleteBySource index p hc hns) hcondrest

/-- Every kept entry comes from the original dictionary. -/
theorem sweep_kept_mem (now : Int) (f : String → Bool) :
    ∀ (docs : List (String × DocInfo)) (index : List Chunk),
      ∀ e ∈ (sweepDocs now f docs index).1, e ∈ docs := by
  intro docs
  induction docs with
  | nil => intro index e he; simp [sweepDocs] at he
  | cons hd rest ih =>
    intro index e he
    obtain ⟨p, info⟩ := hd
    simp only [sweepDocs] at he
    by_cases hk : keepEntry now info = true
    · rw [if_pos hk] at he
      rcases List.mem_cons.mp he with heq | hmem
      · exact heq ▸ List.mem_cons_self _ _
      · exact List.mem_cons_of_mem _ (ih index e hmem)
    · rw [if_neg hk] at he
      by_cases hf : f p = true
      · rw [if_pos hf] at he
        exact List.mem_cons_of_mem _ (ih index e he)
      · rw [if_neg hf] at he
        exact List.mem_cons_of_mem _ (ih (deleteBySource index p) e he)

/-- An expired non-sample entry is removed from the ledger by the sweep
(whether or not the index delete succeeded), provided the dictionary keys are
distinct as a Python dict guarantees. -/
theorem sweep_removes (now : Int) (f : String → Bool) (p : String) (info : DocInfo) :
    ∀ (docs : List (String × DocInfo)), (docs.map Prod.fst).Nodup →
      (p, info) ∈ docs → keepEntry now info = false →
      ∀ (index : List Chunk) (info2 : DocInfo),
        (p, info2) ∉ (sweepDocs now f docs index).1 := by
  intro docs
  induction docs with
  | nil => intro _ hmem; simp at hmem
  | cons hd rest ih =>
    intro hnodup hmem hkeep index info2 hkept
    obtain ⟨q, j⟩ := hd
    simp only [List.map_cons] at hnodup
    obtain ⟨hqnot, hnodup2⟩ := List.nodup_cons.mp hnodup
    rcases List.mem_cons.mp hmem with heq | hmemrest
    · cases heq
      simp only [sweepDocs] at hkept
      rw [if_neg (by simp [hkeep])] at hkept
      by_cases hf : f p = true
      · rw [if_pos hf] at hkept
        exact hqnot (List.mem_map_of_mem Prod.fst (sweep_kept_mem now f rest index _ hkept))
      · rw [if_neg hf] at hkept
        exact hqnot (List.mem_map_of_mem Prod.fst
          (sweep_kept_mem now f rest (deleteBySource index p) _ hkept))
    · have hp_in_rest : p ∈ rest.map Prod.fst := List.mem_map_of_mem Prod.fst hmemrest
      simp only [sweepDocs] at hkept
      by_cases hk : keepEntry now j = true
      · rw [if_pos hk] at hkept
        rcases List.mem_cons.mp hkept with heq2 | hkept2
        · have : p = q := congrArg Prod.fst heq2
          exact hqnot (this ▸ hp_in_rest)
        · exact ih hnodup2 hmemrest hkeep index info2 hkept2
      · rw [if_neg hk] at hkept
        by_cases hf : f q = true
        · rw [if_pos hf] at hkept
          exact ih hnodup2 hmemrest hkeep index info2 hkept
        · rw [if_neg hf] at hkept
          exact ih hnodup2 hmemrest hkeep (deleteBySource index q) info2 hkept

/-- Claim C3, counterexample.  On a ledger storage file that exists but is
not valid JSON, `json.load` has no handler in either reader: the startup
sweep and the per-session listing both raise instead of treating the ledger
as empty (contrast `_check_rate_limit`, which does catch `JSONDecodeError`). -/
theorem c3_corrupt_ledger_counterexample :
    (cleanupOldDocuments 0 (fun _ => false) ⟨.corrupt, []⟩).1 = .error "JSONDecodeError"
    ∧ getDocumentsBySession ⟨.corrupt, []⟩ "s" = .error "JSONDecodeError" :=
  ⟨rfl, rfl⟩

/-- Claim C3, amended: a MISSING ledger storage file is treated as containing
no tracked documents by both the startup sweep (which returns at once,
deleting nothing) and the per-session listing (which returns the empty list);
a corrupt file, however, makes both raise a JSON decode error, leaving the
state untouched. -/
theorem c3_missing_ledger_empty (now : Int) (deleteFails : String → Bool)
    (index : List Chunk) (sid : String) :
    cleanupOldDocuments now deleteFails ⟨.missing, index⟩ = (.ok (), ⟨.missing, index⟩, 0)
    ∧ getDocumentsBySession ⟨.missing, index⟩ sid = .ok []
    ∧ (cleanupOldDocuments now deleteFails ⟨.corrupt, index⟩).1 = .error "JSONDecodeError"
    ∧ (cleanupOldDocuments now deleteFails ⟨.corrupt, index⟩).2.1 = ⟨.corrupt, index⟩
    ∧ getDocumentsBySession ⟨.corrupt, index⟩ sid = .error "JSONDecodeError" :=
  ⟨rfl, rfl, rfl, rfl, rfl⟩

/-- Claim C7: the sweep is idempotent.  Whatever the ledger file state
(missing, corrupt or valid), running `_cleanup_old_documents` a second time
at the same instant on the state the first run left behind changes nothing
and deletes zero documents: every entry the first run kept still satisfies
the keep condition. -/
theorem c7_sweep_idempotent (now : Int) (deleteFails : String → Bool) (st : SysState) :
    (cleanupOldDocuments now deleteFails
        (cleanupOldDocuments now deleteFails st).2.1).2.1
      = (cleanupOldDocuments now deleteFails st).2.1
    ∧ (cleanupOldDocuments now deleteFails
        (cleanupOldDocuments now deleteFails st).2.1).2.2 = 0 := by
  obtain ⟨file, index⟩ := st
  cases file with
  | missing => exact ⟨rfl, rfl⟩
  | corrupt => exact ⟨rfl, rfl⟩
  | valid docs =>
    have h2 := sweep_all_keep now deleteFails
      (sweepDocs now deleteFails docs index).1
      (sweepDocs now deleteFails docs index).2.1
      (fun e he => sweep_kept_keep now deleteFails docs index e he)
    constructor
    · simp only [cleanupOldDocuments, h2]
    · simp only [cleanupOldDocuments, h2]

/-- A user document and a sample document ingested under the same source
path, as raw chunks before `add_documents` tagging. -/
def userChunkRaw : Chunk :=
  { page_content := "user body", source := some "shared.txt"
  , session_id := none, is_sample := false, uploaded_at := 0 }

/-- The raw sample chunk of the aliasing scenario. -/
def sampleChunkRaw : Chunk :=
  { page_content := "sample body", source := some "shared.txt"
  , session_id := none, is_sample := false, uploaded_at := 0 }

/-- The state after ingesting `userChunkRaw` under session "alice" at time 0
and then `sampleChunkRaw` as a sample, starting from no ledger file. -/
def aliasedState : SysState :=
  (addDocuments 0 [sampleChunkRaw] none true
    (addDocuments 0 [userChunkRaw] (some "alice") false ⟨.missing, []⟩).2).2

/-- The sample chunk as stored (after `add_documents` tagging). -/
def storedSampleChunk : Chunk := tagChunk 0 none true sampleChunkRaw

/-- Claim C6, counterexample.  The sweep deletes from the index with
`delete(where={"source": doc_path})`, which matches every chunk carrying that
source, sample-flagged or not.  Ingest a user document under source path
"shared.txt" for session "alice", ingest a sample under the same source
path, and run the sweep 7 days plus a second later: the expired non-sample
ledger entry for "shared.txt" triggers a delete that removes the
sample-flagged chunk from the index too.  So the sweep can delete a sample
chunk. -/
theorem c6_sample_immortality_counterexample :
    storedSampleChunk.is_sample = true
    ∧ storedSampleChunk ∈ aliasedState.index
    ∧ storedSampleChunk ∉
        (cleanupOldDocuments 604801 (fun _ => false) aliasedState).2.1.index := by
  refine ⟨rfl, ?_, ?_⟩ <;> decide

/-- Claim C6, amended: samples are never ledger-tracked on ingestion,
ledger entries flagged sample are always kept by the sweep, and a
sample-flagged chunk is never deleted by the sweep PROVIDED its source path
does not coincide with the path of an expired non-sample ledger entry (the
index delete is by source path, so such aliasing deletes the sample chunk
with the expired document). -/
theorem c6_sample_immortality :
    (∀ (now : Int) (documents : List Chunk) (sid : Option String) (st : SysState),
      (addDocuments now documents sid true st).2.doc_metadata = st.doc_metadata)
    ∧ (∀ (now : Int) (f : String → Bool) (p : String) (info : DocInfo)
        (docs : List (String × DocInfo)) (index : List Chunk),
      (p, info) ∈ docs → info.is_sample = true →
      (p, info) ∈ (sweepDocs now f docs index).1)
    ∧ (∀ (now : Int) (f : String → Bool) (st : SysState) (c : Chunk),
      c ∈ st.index → c.is_sample = true →
      (∀ p info, (p, info) ∈ ledgerDocs st → keepEntry now info = false →
        ¬ c.source = some p) →
      c ∈ (cleanupOldDocuments now f st).2.1.index) := by
  refine ⟨?_, ?_, ?_⟩
  · intro now documents sid st
    cases documents <;> rfl
  · intro now f p info docs
    induction docs with
    | nil => intro index hmem; simp at hmem
    | cons hd rest ih =>
      intro index hmem hsample
      obtain ⟨q, j⟩ := hd
      rcases List.mem_cons.mp hmem with heq | hmemrest
      · cases heq
        have hk : keepEntry now info = true := by
          simp [keepEntry, hsample]
        simp only [sweepDocs]
        rw [if_pos hk]
        exact List.mem_cons_self _ _
      · simp only [sweepDocs]
        by_cases hk : keepEntry now j = true
        · rw [if_pos hk]
          exact List.mem_cons_of_mem _ (ih index hmemrest hsample)
        · rw [if_neg hk]
          by_cases hf : f q = true
          · rw [if_pos hf]
            exact ih index hmemrest hsample
          · rw [if_neg hf]
            exact ih (deleteBySource index q) hmemrest hsample
  · intro now f st c hc hsample hnoalias
    obtain ⟨file, index⟩ := st
    cases file with
    | missing => exact hc
    | corrupt => exact hc
    | valid docs =>
      simp only [cleanupOldDocuments]
      refine sweep_chunk_survives now f c docs index hc ?_
      intro e he hkeep hfail
      exact hnoalias e.1 e.2 he hkeep

/-- Claim C6 witness: a concrete sample chunk whose source path is tracked
by no expired non-sample entry survives a sweep run 7 days later, via the
third clause of the amended theorem. -/
theorem c6_sample_immortality_witness :
    storedSampleChunk ∈
      (cleanupOldDocuments 604801 (fun _ => false)
        ⟨.valid [("other.txt", ⟨0, some "alice", false⟩)], [storedSampleChunk]⟩).2.1.index := by
  refine c6_sample_immortality.2.2 604801 (fun _ => false)
    ⟨.valid [("other.txt", ⟨0, some "alice", false⟩)], [storedSampleChunk]⟩
    storedSampleChunk (by decide) (by decide) ?_
  intro p info hmem hkeep
  simp only [ledgerDocs, List.mem_singleton, Prod.mk.injEq] at hmem
  rw [hmem.1]
  decide

/-- Claim C10: during the sweep, an expired non-sample entry whose index
delete raises is handled without propagating the exception: the sweep
completes normally, the entry is nevertheless dropped from the ledger, and
the document chunks remain in the index — the sweep is not atomic per
entry. -/
theorem c10_sweep_not_atomic (now : Int) (deleteFails : String → Bool)
    (docs : List (String × DocInfo)) (index : List Chunk)
    (p : String) (info : DocInfo) (c : Chunk)
    (hnodup : (docs.map Prod.fst).Nodup)
    (hmem : (p, info) ∈ docs)
    (hexp : keepEntry now info = false)
    (hfail : deleteFails p = true)
    (hc : c ∈ index) (hsrc : c.source = some p) :
    (cleanupOldDocuments now deleteFails ⟨.valid docs, index⟩).1 = .ok ()
    ∧ (∀ info2, (p, info2) ∉
        ledgerDocs (cleanupOldDocuments now deleteFails ⟨.valid docs, index⟩).2.1)
    ∧ c ∈ (cleanupOldDocuments now deleteFails ⟨.valid docs, index⟩).2.1.index := by
  refine ⟨rfl, ?_, ?_⟩
  · intro info2
    simp only [cleanupOldDocuments, ledgerDocs]
    exact sweep_removes now deleteFails p info docs hnodup hmem hexp index info2
  · simp only [cleanupOldDocuments]
    refine sweep_chunk_survives now deleteFails c docs index hc ?_
    intro e he hkeep hefail
    intro hcontra
    have hep : e.1 = p := by
      have := hsrc ▸ hcontra
      exact (Option.some.injEq _ _ ▸ this).symm
    rw [hep] at hefail
    rw [hfail] at hefail
    exact Bool.noConfusion hefail

/-- Claim C10 witness: one expired entry for path "p" whose delete raises,
one stored chunk under source "p": the sweep succeeds, drops the entry and
keeps the chunk. -/
theorem c10_sweep_not_atomic_witness :
    (cleanupOldDocuments 604801 (fun q => q == "p")
        ⟨.valid [("p", ⟨0, some "a", false⟩)],
          [⟨"user body", some "p", some "a", false, 0⟩]⟩).1 = .ok ()
    ∧ ("p", (⟨0, some "a", false⟩ : DocInfo)) ∉
        ledgerDocs (cleanupOldDocuments 604801 (fun q => q == "p")
          ⟨.valid [("p", ⟨0, some "a", false⟩)],
            [⟨"user body", some "p", some "a", false, 0⟩]⟩).2.1
    ∧ (⟨"user body", some "p", some "a", false, 0⟩ : Chunk) ∈
        (cleanupOldDocuments 604801 (fun q => q == "p")
          ⟨.valid [("p", ⟨0, some "a", false⟩)],
            [⟨"user body", some "p", some "a", false, 0⟩]⟩).2.1.index := by
  have h := c10_sweep_not_atomic 604801 (fun q => q == "p")
    [("p", ⟨0, some "a", false⟩)] [⟨"user body", some "p", some "a", false, 0⟩]
    "p" ⟨0, some "a", false⟩ ⟨"user body", some "p", some "a", false, 0⟩
    (by decide) (by decide) (by decide) (by decide) (by decide) (by decide)
  exact ⟨h.1, h.2.1 _, h.2.2⟩

/-!
## Query orchestration

`query` and `query_stream` (rag_pipeline.py lines 345-444).  The opaque
similarity search is a parameter: `retrieved` stands for the list returned by
`retriever.invoke(question)` with `k = 4`.  The language model is a parameter
too: a function from prompt to completion for the blocking path, a function
from prompt to the list of streamed content deltas for the streaming path.
The rate-limit file state is threaded explicitly through `checkRateLimit`.
-/

/-- The rate-limit message `query` raises in a `ValueError`. -/
def rateLimitErrMsg : String :=
  "Rate limit exceeded. You can only ask 10 questions per hour. Please try again later."

/-- The rate-limit message `query_stream` yields. -/
def rateLimitStreamMsg : String :=
  "⚠️ Rate limit exceeded. You can only ask 10 questions per hour. Please try again later."

/-- The empty-retrieval guidance `query_stream` yields. -/
def noRelevantInfoMsg : String :=
  "I couldn\x27t find relevant information in your documents. Please try rephrasing your question."

/-- The fallback for a blank model answer in `query`. -/
def emptyAnswerMsg : String :=
  "I apologize, but I couldn\x27t generate a response. Please try rephrasing your question."

/-- The context block: chunk bodies joined with blank lines. -/
def joinContext (docs : List Chunk) : String :=
  String.intercalate "\n\n" (docs.map (fun d => d.page_content))

/-- The sources list: deduplicated source basenames joined with commas.
The Python `set()` iterates in an unspecified order; deduplication keeping
first occurrences is one admissible order and no theorem below depends on
the order. -/
def joinSources (docs : List Chunk) : String :=
  String.intercalate ", " ((docs.map (fun d => basename (d.source.getD ""))).eraseDups)

/-- `_format_prompt` (rag_pipeline.py lines 446-489); `create_rag_chain`
interpolates the textually identical template. -/
def formatPrompt (context sources question : String) : String :=
  "You are an expert AI assistant specializing in document analysis. Your goal is to provide comprehensive, accurate, and well-cited answers.\n\nAvailable Documents: "
  ++ sources
  ++ "\n\nContext from Documents:\n"
  ++ context
  ++ "\n\nUser Question: "
  ++ question
  ++ "\n\nINSTRUCTIONS FOR YOUR RESPONSE:\n1. **Analyze Thoroughly**: Read the context carefully and identify all relevant information\n2. **Answer Comprehensively**: Provide a complete, detailed answer that fully addresses the question\n3. **Use Proper Structure**: \n   - Start with a clear, direct answer\n   - Follow with supporting details and explanation\n   - Use markdown formatting (headings, bullet points, bold) for readability\n4. **Cite Sources Inline**: As you make specific claims, cite the source immediately\n   - Format: (Source: filename, Page X) or (Source: filename) if page unknown\n   - Example: \"The termination period is 30 days (Source: service_agreement.pdf, Page 3)\"\n   - Be specific about which document and page number whenever possible\n5. **Include a Sources Section**: At the end of your answer, add:\n   **Sources Referenced:**\n   • filename (Page X) - Brief note about what info came from here\n   • filename2 (Page Y) - Brief note\n   \n6. **Quality Standards**:\n   - Be specific and precise with facts, numbers, dates, and terms\n   - Quote exact phrases when important (use quotation marks)\n   - If information is unclear or missing, state what\x27s uncertain\n   - Connect related points to create a cohesive narrative\n\nAnswer:"

/-- Python `not s or s.strip() == ""`: the string is empty or all
whitespace (stripping leading and trailing whitespace leaves the empty
string exactly when every character is whitespace). -/
def isBlankStr (s : String) : Bool :=
  s.data.all Char.isWhitespace

/-- The answer-extraction tail of `query`: a blank model answer is replaced
by the apology fallback. -/
def queryAnswer (answer : String) : String :=
  if isBlankStr answer then emptyAnswerMsg else answer

/-- `query` (rag_pipeline.py lines 345-389): rate gate first (a rejection
raises and writes nothing), then the chain — session-filtered retrieval,
prompt assembly, one model invocation — runs UNCONDITIONALLY: there is no
empty-retrieval check on this path.  Returns the outcome and the persisted
rate window. -/
def query (now : Int) (rateState : List Int) (retrieved : List Chunk)
    (session_id : Option String) (llm : String → String) (question : String) :
    Except String String × List Int :=
  if (checkRateLimit now rateState).1 then
    (.ok (queryAnswer (llm (formatPrompt
        (joinContext (session_filter session_id retrieved))
        (joinSources (session_filter session_id retrieved)) question))),
      (checkRateLimit now rateState).2)
  else
    (.error rateLimitErrMsg, rateState)

/-- The accumulation loop of `query_stream`: each yielded element is the
full answer so far. -/
def accumulateStream (deltas : List String) : List String :=
  (deltas.foldl (fun acc c => (acc.1 ++ [acc.2 ++ c], acc.2 ++ c))
    (([] : List String), "")).1

/-- `query_stream` (rag_pipeline.py lines 391-444): rate gate (a rejection
yields a warning and stops), session filter on the retrieved documents, the
empty-retrieval guidance short-circuit, then prompt assembly and the
streaming model loop.  Returns the yielded texts and the persisted rate
window. -/
def queryStream (now : Int) (rateState : List Int) (retrieved : List Chunk)
    (session_id : Option String) (llmStream : String → List String)
    (question : String) : List String × List Int :=
  if (checkRateLimit now rateState).1 then
    if (queryStreamFilter session_id retrieved).isEmpty then
      ([noRelevantInfoMsg], (checkRateLimit now rateState).2)
    else
      (accumulateStream (llmStream (formatPrompt
          (joinContext (queryStreamFilter session_id retrieved))
          (joinSources (queryStreamFilter session_id retrieved)) question)),
        (checkRateLimit now rateState).2)
  else
    ([rateLimitStreamMsg], rateState)

/-- `ask` (main.py lines 190-200): guard on the session document list, guard
on a blank question, then delegate to the pipeline query, catching any
exception into an "Error: ..." string.  The pipeline is a parameter so that
independence from it is expressible. -/
def ask (question : String) (session_id : Option String) (current_docs : List String)
    (pipelineQuery : String → Option String → Except String String) : String :=
  if current_docs.isEmpty then "Please load documents first"
  else if isBlankStr question then "Please enter a question"
  else
    match pipelineQuery question session_id with
    | .ok answer => answer
    | .error e => "Error: " ++ e

/-- `ask_stream` (main.py lines 202-218): the same guards, then a thinking
indicator followed by the streamed pipeline texts. -/
def askStream (question : String) (session_id : Option String)
    (current_docs : List String)
    (pipelineStream : String → Option String → List String) : List String :=
  if current_docs.isEmpty then ["Please load documents first"]
  else if isBlankStr question then ["Please enter a question"]
  else "🔍 Analyzing documents..." :: pipelineStream question session_id

/-- Claim C4, counterexample.  The blocking `query` has no empty-retrieval
check: with zero retrieved (hence zero post-filter) chunks it still invokes
the language model on an empty context block and returns the model output,
not the could-not-find guidance. -/
theorem c4_empty_retrieval_counterexample :
    (query 0 [] [] (some "s") (fun _ => "MODEL OUTPUT") "q").1 = .ok "MODEL OUTPUT"
    ∧ "MODEL OUTPUT" ≠ noRelevantInfoMsg := by
  constructor
  · rfl
  · decide

/-- Claim C4, amended: only the streaming path returns the could-not-find
guidance on zero post-filter chunks, and it does so for every possible
model (the model is not invoked); the blocking `query` instead invokes the
model on the empty context and sources blocks, substituting the apology
fallback only when the model output is blank. -/
theorem c4_empty_retrieval (now : Int) (rateState : List Int)
    (retrieved : List Chunk) (session_id : Option String) (question : String)
    (hrate : (checkRateLimit now rateState).1 = true) :
    (queryStreamFilter session_id retrieved = [] →
      ∀ llmStream : String → List String,
        (queryStream now rateState retrieved session_id llmStream question).1
          = [noRelevantInfoMsg])
    ∧ (session_filter session_id retrieved = [] →
      ∀ llm : String → String,
        (query now rateState retrieved session_id llm question).1
          = .ok (queryAnswer (llm (formatPrompt "" "" question)))) := by
  constructor
  · intro hempty llmStream
    rw [queryStream, if_pos hrate, hempty]
    rfl
  · intro hempty llm
    rw [query, if_pos hrate, hempty]
    rfl

/-- Claim C4 witness: concrete empty retrieval; the stream yields the
guidance whatever the model would say, and the blocking path returns the
apology fallback produced by actually consulting the (here blank-answering)
model. -/
theorem c4_empty_retrieval_witness :
    (queryStream 0 [] [] (some "s") (fun _ => ["chunk"]) "q").1 = [noRelevantInfoMsg]
    ∧ (query 0 [] [] (some "s") (fun _ => "") "q").1 = .ok emptyAnswerMsg := by
  have h := c4_empty_retrieval 0 [] [] (some "s") "q" (by decide)
  refine ⟨h.1 rfl (fun _ => ["chunk"]), ?_⟩
  rw [h.2 rfl (fun _ => "")]
  exact congrArg Except.ok (by decide)

/-- Claim C5: a question asked through `ask` or `ask_stream` with an empty
session document list returns (or yields exactly) the load-documents
guidance.  The result is the same for EVERY pipeline behaviour, so neither
retrieval (no embedding, no similarity search) nor the model gateway is
consulted. -/
theorem c5_no_documents_guidance (question : String) (session_id : Option String)
    (pipelineQuery : String → Option String → Except String String)
    (pipelineStream : String → Option String → List String) :
    ask question session_id [] pipelineQuery = "Please load documents first"
    ∧ askStream question session_id [] pipelineStream
        = ["Please load documents first"] := by
  constructor <;> rfl

/-!
## Model gateway

`MODEL_CONFIG`, `_initialize_llm` and `switch_model` (rag_pipeline.py lines
22-45 and 94-174).  The process environment is a parameter
`env : String → Option String` standing for `os.getenv`; note `os.getenv`
returns the empty string when the variable is exported empty, and the source
tests the credential with `if not groq_key:` (truthiness).  The float
`temperature` field (0.1 for every entry) plays no role in any claim and is
not carried in the embedding.
-/

/-- One entry of the fixed `MODEL_CONFIG` registry. -/
structure ModelConfig where
  provider : String
  model : String
  display : String
  max_tokens : Nat
deriving DecidableEq

/-- The fixed registry from rag_pipeline.py lines 23-45. -/
def MODEL_CONFIG : List (String × ModelConfig) :=
  [ ("gpt-oss-120b",
      ⟨"groq", "openai/gpt-oss-120b", "GPT-OSS 120B (OpenAI)", 1024⟩)
  , ("llama-3.3-70b",
      ⟨"groq", "llama-3.3-70b-versatile", "Llama 3.3 70B (Meta)", 1024⟩)
  , ("gemma-3-27b",
      ⟨"openrouter", "google/gemma-3-27b-it:free", "Gemma 3 27B (Google)", 512⟩) ]

/-- Registry lookup: `model_key in self.MODEL_CONFIG` and
`self.MODEL_CONFIG[model_key]`. -/
def configLookup (model_key : String) : Option ModelConfig :=
  (MODEL_CONFIG.find? (fun e => e.1 == model_key)).map (fun e => e.2)

/-- The constructed `ChatOpenAI` backend, reduced to the arguments the
source passes it. -/
structure LLMInst where
  model : String
  api_key : String
  api_base : String
  max_tokens : Nat
deriving DecidableEq

/-- `_initialize_llm`: reject an unknown key; resolve the provider
credential from the environment, rejecting an absent OR empty value
(`if not groq_key:`); otherwise build the backend for the provider. -/
def initializeLLM (env : String → Option String) (model_key : String) :
    Except String LLMInst :=
  match configLookup model_key with
  | none => .error ("Invalid model key: " ++ model_key)
  | some config =>
    if config.provider == "groq" then
      match env "GROQ_API_KEY" with
      | none => .error "GROQ_API_KEY environment variable not set"
      | some k =>
        if k == "" then .error "GROQ_API_KEY environment variable not set"
        else .ok ⟨config.model, k, "https://api.groq.com/openai/v1", config.max_tokens⟩
    else if config.provider == "openrouter" then
      match env "OPENROUTER_API_KEY" with
      | none => .error "OPENROUTER_API_KEY environment variable not set"
      | some k =>
        if k == "" then .error "OPENROUTER_API_KEY environment variable not set"
        else .ok ⟨config.model, k, "https://openrouter.ai/api/v1", config.max_tokens⟩
    else .error ("Unknown provider: " ++ config.provider)

/-- The mutable pipeline fields `switch_model` touches: the current model
key, the LLM instance, and the RAG chain (which captures the LLM it was
built over). -/
structure PipelineState where
  current_model : String
  llm : LLMInst
  rag_chain : LLMInst
deriving DecidableEq

/-- `switch_model` (rag_pipeline.py lines 154-174): `_initialize_llm` runs
first, so a raise leaves `self.llm`, `self.current_model` and
`self.rag_chain` untouched; on success all three are replaced and the
display name is returned. -/
def switchModel (env : String → Option String) (st : PipelineState)
    (model_key : String) : Except String String × PipelineState :=
  match initializeLLM env model_key with
  | .error e => (.error e, st)
  | .ok llm =>
    (.ok (((configLookup model_key).map (fun c => c.display)).getD ""),
      ⟨model_key, llm, llm⟩)

/-- The provider-to-credential-variable map the source hardcodes. -/
def providerCredVar (provider : String) : Option String :=
  if provider == "groq" then some "GROQ_API_KEY"
  else if provider == "openrouter" then some "OPENROUTER_API_KEY"
  else none

/-- A concrete prior pipeline state for the C8 instances. -/
def priorState : PipelineState :=
  ⟨"llama-3.3-70b", ⟨"llama-3.3-70b-versatile", "old-key", "https://api.groq.com/openai/v1", 1024⟩,
    ⟨"llama-3.3-70b-versatile", "old-key", "https://api.groq.com/openai/v1", 1024⟩⟩

/-- An environment in which the Groq credential variable is PRESENT but
exported empty, as `os.getenv` then reports the empty string. -/
def emptyCredEnv : String → Option String :=
  fun k => if k == "GROQ_API_KEY" then some "" else none

/-- Claim C8, counterexample.  "gpt-oss-120b" is a known registry key and
its provider credential variable is present in the environment, yet
`switch_model` raises, because the source tests the credential with
truthiness (`if not groq_key:`) and an empty value fails it.  So "key known
and credential present" does not suffice for success as claimed. -/
theorem c8_switch_model_counterexample :
    (configLookup "gpt-oss-120b").isSome = true
    ∧ (emptyCredEnv "GROQ_API_KEY").isSome = true
    ∧ switchModel emptyCredEnv priorState "gpt-oss-120b"
        = (.error "GROQ_API_KEY environment variable not set", priorState) := by
  refine ⟨rfl, rfl, rfl⟩

/-- Claim C8, amended: an unknown model key, or a provider credential
variable that is absent or exported EMPTY, makes `switch_model` raise a
configuration error with the previously active model key, LLM instance and
RAG chain unchanged; a known key whose provider credential is present and
non-empty yields the display name and replaces all three fields for
subsequent queries. -/
theorem c8_switch_model (env : String → Option String) (st : PipelineState)
    (model_key : String) :
    (configLookup model_key = none →
      ∃ e, switchModel env st model_key = (.error e, st))
    ∧ (∀ config cv, configLookup model_key = some config →
      providerCredVar config.provider = some cv →
      (env cv = none ∨ env cv = some "") →
      ∃ e, switchModel env st model_key = (.error e, st))
    ∧ (∀ config cv k, configLookup model_key = some config →
      providerCredVar config.provider = some cv →
      env cv = some k → k ≠ "" →
      ∃ llm, switchModel env st model_key = (.ok config.display, ⟨model_key, llm, llm⟩)
        ∧ llm.api_key = k) := by
  refine ⟨?_, ?_, ?_⟩
  · intro hnone
    refine ⟨"Invalid model key: " ++ model_key, ?_⟩
    simp [switchModel, initializeLLM, hnone]
  · intro config cv hconfig hcv henv
    by_cases hgroq : (config.provider == "groq") = true
    · have hcveq : cv = "GROQ_API_KEY" := by
        rw [providerCredVar, if_pos hgroq] at hcv
        exact (Option.some.inj hcv).symm
      subst hcveq
      refine ⟨"GROQ_API_KEY environment variable not set", ?_⟩
      rcases henv with h | h <;>
        simp [switchModel, initializeLLM, hconfig, hgroq, h]
    · have hor : (config.provider == "openrouter") = true := by
        by_cases h2 : (config.provider == "openrouter") = true
        · exact h2
        · rw [providerCredVar, if_neg hgroq, if_neg h2] at hcv
          cases hcv
      have hcveq : cv = "OPENROUTER_API_KEY" := by
        rw [providerCredVar, if_neg hgroq, if_pos hor] at hcv
        exact (Option.some.inj hcv).symm
      subst hcveq
      refine ⟨"OPENROUTER_API_KEY environment variable not set", ?_⟩
      rcases henv with h | h <;>
        simp [switchModel, initializeLLM, hconfig, hgroq, hor, h]
  · intro config cv k hconfig hcv henv hk
    have hkne : (k == "") = false := by
      simpa using hk
    by_cases hgroq : (config.provider == "groq") = true
    · have hcveq : cv = "GROQ_API_KEY" := by
        rw [providerCredVar, if_pos hgroq] at hcv
        exact (Option.some.inj hcv).symm
      subst hcveq
      refine ⟨⟨config.model, k, "https://api.groq.com/openai/v1", config.max_tokens⟩, ?_, rfl⟩
      simp [switchModel, initializeLLM, hconfig, hgroq, henv, hkne]
    · have hor : (config.provider == "openrouter") = true := by
        by_cases h2 : (config.provider == "openrouter") = true
        · exact h2
        · rw [providerCredVar, if_neg hgroq, if_neg h2] at hcv
          cases hcv
      have hcveq : cv = "OPENROUTER_API_KEY" := by
        rw [providerCredVar, if_neg hgroq, if_pos hor] at hcv
        exact (Option.some.inj hcv).symm
      subst hcveq
      refine ⟨⟨config.model, k, "https://openrouter.ai/api/v1", config.max_tokens⟩, ?_, rfl⟩
      simp [switchModel, initializeLLM, hconfig, hgroq, hor, henv, hkne]

/-- Claim C8 witness: with a non-empty Groq credential in the environment,
switching to "gpt-oss-120b" returns its display name and installs the new
backend, via the success clause of the amended theorem. -/
theorem c8_switch_model_witness :
    ∃ llm, switchModel (fun k => if k == "GROQ_API_KEY" then some "gk" else none)
        priorState "gpt-oss-120b"
      = (.ok "GPT-OSS 120B (OpenAI)", ⟨"gpt-oss-120b", llm, llm⟩)
      ∧ llm.api_key = "gk" := by
  exact (c8_switch_model (fun k => if k == "GROQ_API_KEY" then some "gk" else none)
    priorState "gpt-oss-120b").2.2
    ⟨"groq", "openai/gpt-oss-120b", "GPT-OSS 120B (OpenAI)", 1024⟩
    "GROQ_API_KEY" "gk" rfl rfl rfl (by decide)

/-- Claim C9: with `session_id = None` no session filtering is applied at
all: both the chain filter and the streaming filter return the retrieved
top-k documents unchanged, so chunks ingested under any session (not only
samples) reach the context of a token-less query — concretely, a rate-passing
token-less `query_stream` over a non-empty retrieval streams the model over
a prompt built from ALL retrieved chunks. -/
theorem c9_no_token_no_filter (docs : List Chunk) :
    (session_filter none docs = docs ∧ queryStreamFilter none docs = docs)
    ∧ (∀ (now : Int) (rateState : List Int) (llmStream : String → List String)
        (question : String),
      (checkRateLimit now rateState).1 = true → docs ≠ [] →
      (queryStream now rateState docs none llmStream question).1
        = accumulateStream (llmStream (formatPrompt (joinContext docs)
            (joinSources docs) question))) := by
  refine ⟨⟨rfl, rfl⟩, ?_⟩
  intro now rateState llmStream question hrate hne
  rw [queryStream, if_pos hrate]
  have hfilter : queryStreamFilter none docs = docs := rfl
  have hempty : docs.isEmpty = false := by
    simpa [List.isEmpty_iff] using hne
  rw [hfilter, hempty]
  simp

/-- Claim C9 witness: a token-less streaming query over a retrieval holding
one non-sample chunk of session "a" streams over a prompt containing that
chunk, instead of filtering it out. -/
theorem c9_no_token_no_filter_witness :
    (queryStream 0 [] [chunkOfSessionA] none (fun p => [p]) "q").1
      = accumulateStream ((fun p => [p]) (formatPrompt
          (joinContext [chunkOfSessionA]) (joinSources [chunkOfSessionA]) "q")) :=
  (c9_no_token_no_filter [chunkOfSessionA]).2 0 [] (fun p => [p]) "q"
    (by decide) (by decide)
